import Mathlib

/-!
Shallow embedding of the Room Session & Signaling Coordinator of
`src/server.js` (a Socket.IO chat / WebRTC signaling relay backed by
SQLite).  Machine identifiers (uuid v4, socket ids) are modelled as
`String`; AUTOINCREMENT integer keys as `Nat` counters carried in the
database state; SQL `CURRENT_TIMESTAMP` / `new Date()` as an explicit
`now : Nat` parameter (seconds); fallible store round-trips
(`dbGet` / `dbAll` / `dbRun`) as `Option StoreErr` oracles injected per
call site, mirroring promise rejection.
-/

namespace RealChat

/-- Row of the `rooms` table (`id TEXT PRIMARY KEY, code TEXT UNIQUE,
created_at`). -/
structure RoomRow where
  id : String
  code : String
  created_at : Nat
deriving DecidableEq

/-- Row of the `users` table (`id TEXT PRIMARY KEY, room_code, username,
socket_id, joined_at, is_online INTEGER DEFAULT 1, last_seen`). -/
structure UserRow where
  id : String
  room_code : String
  username : String
  socket_id : String
  joined_at : Nat
  is_online : Nat
  last_seen : Nat
deriving DecidableEq

/-- Row of the `messages` table (`id INTEGER PRIMARY KEY AUTOINCREMENT,
room_code, user_id, username, message, message_type DEFAULT 'text',
created_at`). -/
structure MessageRow where
  id : Nat
  room_code : String
  user_id : String
  username : String
  message : String
  message_type : String
  created_at : Nat
deriving DecidableEq

/-- Row of the `calls` table (`id INTEGER PRIMARY KEY AUTOINCREMENT,
room_code, call_type, initiator_id, initiator_name, status DEFAULT
'active', started_at, ended_at`). -/
structure CallRow where
  id : Nat
  room_code : String
  call_type : String
  initiator_id : String
  initiator_name : String
  status : String
  started_at : Nat
  ended_at : Option Nat
deriving DecidableEq

/-- The SQLite database: the four tables plus the AUTOINCREMENT counters
for the two integer-keyed tables. -/
structure DB where
  rooms : List RoomRow
  users : List UserRow
  messages : List MessageRow
  calls : List CallRow
  nextMessageId : Nat
  nextCallId : Nat
deriving DecidableEq

/-- Presence entry: the `socket.roomCode / socket.userId / socket.username`
fields assigned by the join-room handler, together with transport room
membership (`socket.join(roomCode)`), as in §4.1 of the design. -/
structure Presence where
  roomCode : String
  userId : String
  username : String
deriving DecidableEq

/-- In-memory Call Tracker entry (`activeCalls.set(roomCode, {callType,
initiator})`). -/
structure CallInfo where
  callType : String
  initiator : String
deriving DecidableEq

/-- Whole coordinator state: durable store plus the two in-memory maps.
The maps are association lists keyed by connection id / room code. -/
structure ServerState where
  db : DB
  presence : List (String × Presence)
  activeCalls : List (String × CallInfo)
deriving DecidableEq

/-- Presence lookup for a connection. -/
def getPresence (s : ServerState) (conn : String) : Option Presence :=
  (s.presence.find? (fun e => e.1 == conn)).map (fun e => e.2)

/-- Register (or overwrite) the presence entry of a connection. -/
def setPresence (s : ServerState) (conn : String) (p : Presence) : ServerState :=
  { s with presence := (conn, p) :: s.presence.filter (fun e => e.1 != conn) }

/-- Drop the presence entry of a connection (the transport removes a
disconnected socket from all rooms). -/
def removePresence (s : ServerState) (conn : String) : ServerState :=
  { s with presence := s.presence.filter (fun e => e.1 != conn) }

/-- Call Tracker lookup for a room. -/
def getActiveCall (s : ServerState) (room : String) : Option CallInfo :=
  (s.activeCalls.find? (fun e => e.1 == room)).map (fun e => e.2)

/-- Audience of `io.to(room)`: every connection whose presence entry is in
the room, the actor included (§4.1 audience-resolution rule). -/
def roomConns (s : ServerState) (room : String) : List String :=
  (s.presence.filter (fun e => e.2.roomCode == room)).map (fun e => e.1)

/-- Audience of `socket.to(room)`: every other connection in the room. -/
def roomConnsExcept (s : ServerState) (room : String) (conn : String) : List String :=
  (roomConns s room).filter (fun c => c != conn)

/-- View of a member row as emitted in the `room-joined` snapshot. -/
structure MemberView where
  id : String
  username : String
  isOnline : Nat
  lastSeen : Nat
deriving DecidableEq

/-- View of a member row as emitted in the `user-joined` notice (no
`lastSeen` field there). -/
structure MemberBrief where
  id : String
  username : String
  isOnline : Nat
deriving DecidableEq

/-- Row produced by the history query
`SELECT m.*, u.username FROM messages m LEFT JOIN users u ON m.user_id = u.id`.
The driver returns each row as an object keyed by column name, so the
second `username` column (from `users`, NULL when the LEFT JOIN finds no
row) overwrites the `username` stored on the message row itself; hence
`username : Option String` holds the joined value only. -/
structure MessageView where
  id : Nat
  room_code : String
  user_id : String
  username : Option String
  message : String
  message_type : String
  created_at : Nat
deriving DecidableEq

/-- Payload of the `new-message` broadcast built in the send-message
handler. -/
structure NewMessage where
  id : Nat
  user_id : String
  username : String
  message : String
  message_type : String
  created_at : Nat
deriving DecidableEq

/-- Outbound events of the coordinator. -/
inductive OutEvent where
  | roomJoined (roomCode : String) (userId : String) (users : List MemberView)
      (messages : List MessageView) (callHistory : List CallRow)
  | userJoined (userId : String) (username : String) (users : List MemberBrief)
  | newMessage (m : NewMessage)
  | errorEv (message : String)
  | userTypingStart (userId : String) (username : String)
  | userTypingStop (userId : String)
  | offerEv (offer : String) (fromId : String) (username : String) (callType : String)
  | answerEv (answer : String) (fromId : String)
  | iceCandidateEv (candidate : String) (fromId : String)
  | callEnded (fromId : String) (username : String)
  | userLeft (userId : String) (username : String)
  | pong
deriving DecidableEq

/-- A store round-trip either succeeds or rejects; a rejection is either a
uniqueness-constraint violation or some other error.  The handlers of
`src/server.js` never inspect the kind — every rejection lands in the same
`catch`. -/
inductive StoreErr where
  | unique
  | other
deriving DecidableEq

/-! ### SQL query embeddings -/

/-- Predicate of `WHERE room_code = ? AND username = ?` on `users`. -/
def userKey (code name : String) (u : UserRow) : Bool :=
  u.room_code == code && u.username == name

/-- `ORDER BY is_online DESC, username ASC` on `users`. -/
def userOrd (a b : UserRow) : Prop :=
  b.is_online < a.is_online ∨ (a.is_online = b.is_online ∧ a.username ≤ b.username)

instance : DecidableRel userOrd := fun _ _ =>
  inferInstanceAs (Decidable (_ ∨ _))

/-- `ORDER BY created_at ASC` on `messages`. -/
def msgOrd (a b : MessageRow) : Prop :=
  a.created_at ≤ b.created_at

instance : DecidableRel msgOrd := fun _ _ =>
  inferInstanceAs (Decidable (_ ≤ _))

/-- `ORDER BY started_at DESC` on `calls`. -/
def callOrd (a b : CallRow) : Prop :=
  b.started_at ≤ a.started_at

instance : DecidableRel callOrd := fun _ _ =>
  inferInstanceAs (Decidable (_ ≤ _))

/-- Member-list query of the join handler:
`SELECT id, username, is_online, last_seen FROM users WHERE room_code = ?
ORDER BY is_online DESC, username ASC` (row selection and ordering; the
projection to the emitted fields is `toMemberView`). -/
def memberList (db : DB) (code : String) : List UserRow :=
  List.insertionSort userOrd (db.users.filter (fun u => u.room_code == code))

/-- Projection of a member row to the `room-joined` snapshot shape. -/
def toMemberView (u : UserRow) : MemberView :=
  ⟨u.id, u.username, u.is_online, u.last_seen⟩

/-- Projection of a member row to the `user-joined` notice shape. -/
def toMemberBrief (u : UserRow) : MemberBrief :=
  ⟨u.id, u.username, u.is_online⟩

/-- The `LEFT JOIN users u ON m.user_id = u.id` projection of one message
row: `u.username` (NULL when no user row matches) overwrites the message's
own `username` column in the result object. -/
def msgView (db : DB) (m : MessageRow) : MessageView :=
  ⟨m.id, m.room_code, m.user_id,
    (db.users.find? (fun u => u.id == m.user_id)).map (fun u => u.username),
    m.message, m.message_type, m.created_at⟩

/-- Message-history query of the join handler:
`SELECT m.*, u.username FROM messages m LEFT JOIN users u ON m.user_id = u.id
WHERE m.room_code = ? ORDER BY m.created_at ASC`. -/
def messageHistory (db : DB) (code : String) : List MessageView :=
  (List.insertionSort msgOrd (db.messages.filter (fun m => m.room_code == code))).map
    (msgView db)

/-- Call-history query of the join handler:
`SELECT * FROM calls WHERE room_code = ? ORDER BY started_at DESC LIMIT 10`. -/
def recentCalls (db : DB) (code : String) : List CallRow :=
  (List.insertionSort callOrd (db.calls.filter (fun c => c.room_code == code))).take 10

/-- All user rows of a `(room_code, username)` pair. -/
def usersFor (db : DB) (code name : String) : List UserRow :=
  db.users.filter (userKey code name)

/-! ### Handlers -/

/-- Outcome oracle for the store round-trips of one join-room handler run,
in program order, together with the two `uuidv4()` draws the handler may
consume.  `none` means the round-trip resolves; `some e` means it rejects
with `e` (landing in the handler's `catch`). -/
structure JoinPlan where
  roomId : String
  userId : String
  roomGet : Option StoreErr
  roomInsert : Option StoreErr
  userGet : Option StoreErr
  userWrite : Option StoreErr
  usersQuery : Option StoreErr
  messagesQuery : Option StoreErr
  callsQuery : Option StoreErr
deriving DecidableEq

/-- A join-room run in which every store round-trip succeeds. -/
def JoinPlan.ok (p : JoinPlan) : Prop :=
  p.roomGet = none ∧ p.roomInsert = none ∧ p.userGet = none ∧ p.userWrite = none ∧
    p.usersQuery = none ∧ p.messagesQuery = none ∧ p.callsQuery = none

instance : DecidablePred JoinPlan.ok := fun _ =>
  inferInstanceAs (Decidable (_ ∧ _))

/-- The error notice the join handler's `catch` emits to the joiner. -/
def joinErr (conn : String) : List (String × OutEvent) :=
  [(conn, OutEvent.errorEv "Failed to join room")]

/-- Tail of the join handler after the room and user writes: register
presence (`socket.join` + the three `socket.*` assignments), run the three
snapshot queries, emit `room-joined` to the joiner and `user-joined` to the
others.  A failing snapshot query jumps to the `catch` — note the presence
registration already happened and is not rolled back. -/
def joinAfterUser (s : ServerState) (conn code name uid : String)
    (plan : JoinPlan) : ServerState × List (String × OutEvent) :=
  let s2 := setPresence s conn ⟨code, uid, name⟩
  match plan.usersQuery with
  | some _ => (s2, joinErr conn)
  | none =>
    match plan.messagesQuery with
    | some _ => (s2, joinErr conn)
    | none =>
      match plan.callsQuery with
      | some _ => (s2, joinErr conn)
      | none =>
        let users := memberList s2.db code
        (s2,
          (conn, OutEvent.roomJoined code uid (users.map toMemberView)
            (messageHistory s2.db code) (recentCalls s2.db code)) ::
          (roomConnsExcept s2 code conn).map
            (fun c => (c, OutEvent.userJoined uid name (users.map toMemberBrief))))

/-- User phase of the join handler: look up the user by
`(room_code, username)`; when found, reuse its id and
`UPDATE users SET socket_id = ?, is_online = 1, last_seen =
CURRENT_TIMESTAMP WHERE id = ?`; when absent, insert a fresh row with a
fresh uuid.  Returns the written database and the assigned user id. -/
def joinUserWrite (db : DB) (conn code name : String) (now : Nat)
    (plan : JoinPlan) : DB × String :=
  match db.users.find? (userKey code name) with
  | some ex =>
    ({ db with users := db.users.map (fun u =>
        if u.id == ex.id then { u with socket_id := conn, is_online := 1, last_seen := now }
        else u) }, ex.id)
  | none =>
    ({ db with users := db.users ++ [⟨plan.userId, code, name, conn, now, 1, now⟩] },
      plan.userId)

/-- Middle of the join handler: the user lookup/write phase with its two
fallible store round-trips, then the snapshot phase. -/
def joinAfterRoom (s : ServerState) (conn code name : String) (now : Nat)
    (plan : JoinPlan) : ServerState × List (String × OutEvent) :=
  match plan.userGet with
  | some _ => (s, joinErr conn)
  | none =>
    match plan.userWrite with
    | some _ => (s, joinErr conn)
    | none =>
      let w := joinUserWrite s.db conn code name now plan
      joinAfterUser { s with db := w.1 } conn code name w.2 plan

/-- The `join-room` handler (src/server.js lines 124-220): look up the room
by code, create it when absent, then continue with the user phase.  Any
store rejection lands in the `catch`, which emits the error notice to the
joining connection only. -/
def joinRoom (s : ServerState) (conn code name : String) (now : Nat)
    (plan : JoinPlan) : ServerState × List (String × OutEvent) :=
  match plan.roomGet with
  | some _ => (s, joinErr conn)
  | none =>
    match s.db.rooms.find? (fun r => r.code == code) with
    | some _ => joinAfterRoom s conn code name now plan
    | none =>
      match plan.roomInsert with
      | some _ => (s, joinErr conn)
      | none =>
        joinAfterRoom
          { s with db := { s.db with rooms := s.db.rooms ++ [⟨plan.roomId, code, now⟩] } }
          conn code name now plan

/-- The `send-message` handler (lines 223-250): require presence, insert
the message row, then broadcast the fully formed message via
`io.to(roomCode)` (everyone in the room, sender included).  Both the
missing-presence throw and an insert rejection land in the same `catch`,
which emits the error notice to the sender only. -/
def sendMessage (s : ServerState) (conn msg mtype : String) (now : Nat)
    (insertFail : Option StoreErr) : ServerState × List (String × OutEvent) :=
  match getPresence s conn with
  | none => (s, [(conn, OutEvent.errorEv "Failed to send message")])
  | some p =>
    match insertFail with
    | some _ => (s, [(conn, OutEvent.errorEv "Failed to send message")])
    | none =>
      let mid := s.db.nextMessageId
      let s1 := { s with db := { s.db with
        messages := s.db.messages ++ [⟨mid, p.roomCode, p.userId, p.username, msg, mtype, now⟩],
        nextMessageId := mid + 1 } }
      (s1, (roomConns s1 p.roomCode).map
        (fun c => (c, OutEvent.newMessage ⟨mid, p.userId, p.username, msg, mtype, now⟩)))

/-- The `typing-start` handler (lines 253-260). -/
def typingStart (s : ServerState) (conn : String) : ServerState × List (String × OutEvent) :=
  match getPresence s conn with
  | none => (s, [])
  | some p =>
    (s, (roomConnsExcept s p.roomCode conn).map
      (fun c => (c, OutEvent.userTypingStart p.userId p.username)))

/-- The `typing-stop` handler (lines 262-268). -/
def typingStop (s : ServerState) (conn : String) : ServerState × List (String × OutEvent) :=
  match getPresence s conn with
  | none => (s, [])
  | some p =>
    (s, (roomConnsExcept s p.roomCode conn).map
      (fun c => (c, OutEvent.userTypingStop p.userId)))

/-- The `offer` handler (lines 271-285): record the call in the tracker
(last offer wins), relay to the others. -/
def offerH (s : ServerState) (conn offer callType : String) :
    ServerState × List (String × OutEvent) :=
  match getPresence s conn with
  | none => (s, [])
  | some p =>
    let s1 := { s with activeCalls :=
      (p.roomCode, ⟨callType, p.userId⟩) :: s.activeCalls.filter (fun e => e.1 != p.roomCode) }
    (s1, (roomConnsExcept s1 p.roomCode conn).map
      (fun c => (c, OutEvent.offerEv offer p.userId p.username callType)))

/-- The `answer` handler (lines 287-294). -/
def answerH (s : ServerState) (conn answer : String) :
    ServerState × List (String × OutEvent) :=
  match getPresence s conn with
  | none => (s, [])
  | some p =>
    (s, (roomConnsExcept s p.roomCode conn).map
      (fun c => (c, OutEvent.answerEv answer p.userId)))

/-- The `ice-candidate` handler (lines 296-303). -/
def iceCandidate (s : ServerState) (conn cand : String) :
    ServerState × List (String × OutEvent) :=
  match getPresence s conn with
  | none => (s, [])
  | some p =>
    (s, (roomConnsExcept s p.roomCode conn).map
      (fun c => (c, OutEvent.iceCandidateEv cand p.userId)))

/-- Per-row effect of the end-call SQL UPDATE
(`SET status = 'ended', ended_at = CURRENT_TIMESTAMP WHERE room_code = ?
AND status = 'active'`): an active row of the room becomes ended with
`ended_at = now`; any other row is untouched. -/
def endMap (room : String) (now : Nat) (c : CallRow) : CallRow :=
  if c.room_code == room && c.status == "active"
  then { c with status := "ended", ended_at := some now } else c

/-- The `end-call` handler (lines 305-320): clear the tracker entry, then
apply the update (`endMap`) to every row of the calls table — note: every
active row of the room, not only the most recent — then notify the others.
A rejected update stops the handler before the broadcast (no `catch`
here). -/
def endCall (s : ServerState) (conn : String) (now : Nat)
    (updFail : Option StoreErr) : ServerState × List (String × OutEvent) :=
  match getPresence s conn with
  | none => (s, [])
  | some p =>
    let s1 := { s with activeCalls := s.activeCalls.filter (fun e => e.1 != p.roomCode) }
    match updFail with
    | some _ => (s1, [])
    | none =>
      let s2 := { s1 with db := { s1.db with
        calls := s1.db.calls.map (endMap p.roomCode now) } }
      (s2, (roomConnsExcept s2 p.roomCode conn).map
        (fun c => (c, OutEvent.callEnded p.userId p.username)))

/-- The `call-started` handler (lines 322-333): best-effort insert of an
`active` call row; a rejection is logged and swallowed. -/
def callStarted (s : ServerState) (conn callType : String) (now : Nat)
    (insertFail : Option StoreErr) : ServerState × List (String × OutEvent) :=
  match getPresence s conn with
  | none => (s, [])
  | some p =>
    match insertFail with
    | some _ => (s, [])
    | none =>
      ({ s with db := { s.db with
        calls := s.db.calls ++
          [⟨s.db.nextCallId, p.roomCode, callType, p.userId, p.username, "active", now, none⟩],
        nextCallId := s.db.nextCallId + 1 } }, [])

/-- The `disconnect` handler (lines 336-366): when the connection has a
presence entry, `UPDATE users SET is_online = 0, last_seen =
CURRENT_TIMESTAMP WHERE socket_id = ?` (so only rows whose stored socket id
still equals the disconnecting connection's id are touched; never a
DELETE), run the count query, then notify the others.  Any rejection is
caught and logged; the transport removes the presence entry in every case. -/
def disconnectH (s : ServerState) (conn : String) (now : Nat)
    (updFail cntFail : Option StoreErr) : ServerState × List (String × OutEvent) :=
  match getPresence s conn with
  | none => (removePresence s conn, [])
  | some p =>
    match updFail with
    | some _ => (removePresence s conn, [])
    | none =>
      let s1 := { s with db := { s.db with users := s.db.users.map (fun u =>
        if u.socket_id == conn then { u with is_online := 0, last_seen := now } else u) } }
      match cntFail with
      | some _ => (removePresence s1 conn, [])
      | none =>
        let others := roomConnsExcept s1 p.roomCode conn
        (removePresence s1 conn,
          others.map (fun c => (c, OutEvent.userLeft p.userId p.username)) ++
          others.map (fun c => (c, OutEvent.userTypingStop p.userId)))

/-- One run of the Reclamation Sweeper's delete (lines 375-386):
`DELETE FROM users WHERE is_online = 0 AND last_seen < datetime('now', '-1 hour')`. -/
def cleanupUsers (db : DB) (now : Nat) : DB :=
  { db with users := db.users.filter (fun u =>
      !(u.is_online == 0 && u.last_seen + 3600 < now)) }

/-- One scheduled sweeper run; a rejected delete is caught and logged,
leaving the store unchanged. -/
def sweepRun (s : ServerState) (now : Nat) (fail : Option StoreErr) : ServerState :=
  match fail with
  | some _ => s
  | none => { s with db := cleanupUsers s.db now }

/-- A sequence of scheduled sweeper runs, each with its own clock reading
and failure outcome; the schedule never stops on error. -/
def sweepSeq (s : ServerState) (runs : List (Nat × Option StoreErr)) : ServerState :=
  runs.foldl (fun st r => sweepRun st r.1 r.2) s

/-- The `ping` handler (lines 369-371). -/
def pingH (s : ServerState) (conn : String) : ServerState × List (String × OutEvent) :=
  (s, [(conn, OutEvent.pong)])

/-! ### Operation alphabet and the transition function -/

/-- One inbound coordinator operation, carrying its payload, the clock
reading at handling time, and the store-failure oracle of its run. -/
inductive Op where
  | join (conn code name : String) (now : Nat) (plan : JoinPlan)
  | send (conn msg mtype : String) (now : Nat) (fail : Option StoreErr)
  | tStart (conn : String)
  | tStop (conn : String)
  | offer (conn offer callType : String)
  | answer (conn answer : String)
  | ice (conn cand : String)
  | callStart (conn callType : String) (now : Nat) (fail : Option StoreErr)
  | callEnd (conn : String) (now : Nat) (fail : Option StoreErr)
  | disc (conn : String) (now : Nat) (updFail cntFail : Option StoreErr)
  | sweep (now : Nat) (fail : Option StoreErr)
  | ping (conn : String)
deriving DecidableEq

/-- State transition of one operation (emissions discarded). -/
def step (s : ServerState) : Op → ServerState
  | Op.join conn code name now plan => (joinRoom s conn code name now plan).1
  | Op.send conn msg mtype now fail => (sendMessage s conn msg mtype now fail).1
  | Op.tStart conn => (typingStart s conn).1
  | Op.tStop conn => (typingStop s conn).1
  | Op.offer conn offer callType => (offerH s conn offer callType).1
  | Op.answer conn answer => (answerH s conn answer).1
  | Op.ice conn cand => (iceCandidate s conn cand).1
  | Op.callStart conn callType now fail => (callStarted s conn callType now fail).1
  | Op.callEnd conn now fail => (endCall s conn now fail).1
  | Op.disc conn now updFail cntFail => (disconnectH s conn now updFail cntFail).1
  | Op.sweep now fail => sweepRun s now fail
  | Op.ping conn => (pingH s conn).1

/-- Run of a sequence of operations. -/
def run (s : ServerState) (ops : List Op) : ServerState :=
  ops.foldl step s

/-! ### General helper lemmas -/

theorem find?_eq_head?_filter (p : α → Bool) :
    ∀ l : List α, l.find? p = (l.filter p).head? := by
  intro l
  induction l with
  | nil => rfl
  | cons a t ih =>
    by_cases h : p a = true
    · rw [List.find?_cons_of_pos _ h, List.filter_cons_of_pos h, List.head?_cons]
    · rw [List.find?_cons_of_neg _ (by simp [h]), List.filter_cons_of_neg (by simp [h]), ih]

theorem filter_map_comm (f : α → α) (p : α → Bool) (hp : ∀ a, p (f a) = p a) :
    ∀ l : List α, (l.map f).filter p = (l.filter p).map f := by
  intro l
  induction l with
  | nil => rfl
  | cons a t ih =>
    by_cases h : p a = true
    · rw [List.map_cons, List.filter_cons_of_pos (by rw [hp]; exact h),
        List.filter_cons_of_pos h, List.map_cons, ih]
    · rw [List.map_cons, List.filter_cons_of_neg (by rw [hp]; simp [h]),
        List.filter_cons_of_neg (by simp [h]), ih]

theorem getPresence_elim {s : ServerState} {conn : String} {p : Presence}
    (h : getPresence s conn = some p) :
    ∃ e ∈ s.presence, e.1 = conn ∧ e.2 = p := by
  unfold getPresence at h
  obtain ⟨e, hfind, he2⟩ := Option.map_eq_some'.mp h
  have hmem := List.mem_of_find?_eq_some hfind
  have hpred := List.find?_some hfind
  simp only [beq_iff_eq] at hpred
  exact ⟨e, hmem, hpred, he2⟩

theorem mem_roomConns_of_getPresence {s : ServerState} {conn : String} {p : Presence}
    (h : getPresence s conn = some p) : conn ∈ roomConns s p.roomCode := by
  obtain ⟨e, hmem, h1, h2⟩ := getPresence_elim h
  unfold roomConns
  refine List.mem_map.mpr ⟨e, List.mem_filter.mpr ⟨hmem, ?_⟩, h1⟩
  rw [h2]
  simp

theorem not_mem_roomConnsExcept (s : ServerState) (room conn : String) :
    conn ∉ roomConnsExcept s room conn := by
  unfold roomConnsExcept
  intro h
  have := (List.mem_filter.mp h).2
  simp at this

/-! ### Claim C9 -/

/-- C9: Each Reclamation Sweeper run deletes exactly the User rows with
`is_online = 0` and `last_seen` older than the one-hour retention
threshold: a row survives the sweep iff it was present and is not a stale
offline row; and a run whose store delete fails leaves every state
unchanged and does not affect any subsequent scheduled run. -/
theorem sweep_deletes_exactly_stale_offline (s : ServerState) (now : Nat) :
    (∀ u, u ∈ (sweepRun s now none).db.users ↔
      (u ∈ s.db.users ∧ ¬(u.is_online = 0 ∧ u.last_seen + 3600 < now))) ∧
    (∀ t e rest, sweepSeq s ((t, some e) :: rest) = sweepSeq s rest) := by
  constructor
  · intro u
    simp [sweepRun, cleanupUsers, List.mem_filter]
    tauto
  · intro t e rest
    simp [sweepSeq, sweepRun]

/-! ### Claim C5 -/

/-- C5: For a Disconnect of a connection with a Presence entry (and a
successful store round-trip), the user table keeps exactly its rows (no
row is ever deleted); every row whose stored `socket_id` differs from the
disconnecting connection's id is left fully unchanged (so a fresher
reconnect on another connection is not clobbered); and every row whose
stored `socket_id` still equals the disconnecting connection's id is
marked offline with `last_seen` refreshed to now. -/
theorem disconnect_marks_offline_only_matching_socket
    (s : ServerState) (conn : String) (now : Nat) (p : Presence)
    (h : getPresence s conn = some p) :
    ((disconnectH s conn now none none).1.db.users.length = s.db.users.length) ∧
    (∀ u ∈ s.db.users, u.socket_id ≠ conn →
      u ∈ (disconnectH s conn now none none).1.db.users) ∧
    (∀ u ∈ s.db.users, u.socket_id = conn →
      { u with is_online := 0, last_seen := now } ∈
        (disconnectH s conn now none none).1.db.users) := by
  simp only [disconnectH, h]
  refine ⟨by simp [removePresence], ?_, ?_⟩
  · intro u hu hne
    simp only [removePresence]
    refine List.mem_map.mpr ⟨u, hu, ?_⟩
    have : (u.socket_id == conn) = false := by simpa using hne
    simp [this]
  · intro u hu heq
    simp only [removePresence]
    refine List.mem_map.mpr ⟨u, hu, ?_⟩
    have : (u.socket_id == conn) = true := by simpa using heq
    simp [this]

/-- Concrete state: room `room1` with rows for alice (connection `cOld`,
with a presence entry) and bob (connection `cNew`). -/
def staleDiscSt : ServerState :=
  { db := { rooms := [⟨"r1", "room1", 0⟩],
            users := [⟨"u1", "room1", "alice", "cOld", 0, 1, 0⟩,
                      ⟨"u2", "room1", "bob", "cNew", 0, 1, 0⟩],
            messages := [], calls := [], nextMessageId := 1, nextCallId := 1 },
    presence := [("cOld", ⟨"room1", "u1", "alice"⟩)],
    activeCalls := [] }

/-- Witness for C5 at a concrete input: disconnecting `cOld` deletes no row
(and, per the theorem, leaves bob's `cNew` row untouched). -/
theorem disconnect_marks_offline_only_matching_socket_witness :
    getPresence staleDiscSt "cOld" = some ⟨"room1", "u1", "alice"⟩ ∧
    (disconnectH staleDiscSt "cOld" 9 none none).1.db.users.length =
      staleDiscSt.db.users.length := by
  refine ⟨by decide, ?_⟩
  exact (disconnect_marks_offline_only_matching_socket staleDiscSt "cOld" 9
    ⟨"room1", "u1", "alice"⟩ (by decide)).1

/-! ### Claim C1 -/

/-- C1: For a SendMessage from a connection with an established Presence
entry, the new-message notice — carrying the server-assigned message id
(the fresh AUTOINCREMENT key of the inserted row) and timestamp — is
broadcast to every connection in the room, the sender included, exactly
when the store insert succeeds (and the broadcast audience matches the
newly inserted Message row); when the insert fails, the output is the
error notice to the sender alone, no connection receives a new-message
notice, and the store is unchanged. -/
theorem sendMessage_broadcast_iff_insert_ok
    (s : ServerState) (conn msg mtype : String) (now : Nat) (fail : Option StoreErr)
    (p : Presence) (h : getPresence s conn = some p) :
    (fail = none →
      (sendMessage s conn msg mtype now fail).2 =
        (roomConns s p.roomCode).map (fun c =>
          (c, OutEvent.newMessage ⟨s.db.nextMessageId, p.userId, p.username, msg, mtype, now⟩)) ∧
      conn ∈ roomConns s p.roomCode ∧
      (sendMessage s conn msg mtype now fail).1.db.messages =
        s.db.messages ++ [⟨s.db.nextMessageId, p.roomCode, p.userId, p.username, msg, mtype, now⟩]) ∧
    (∀ e, fail = some e →
      (sendMessage s conn msg mtype now fail).2 =
        [(conn, OutEvent.errorEv "Failed to send message")] ∧
      (sendMessage s conn msg mtype now fail).1 = s) := by
  constructor
  · rintro rfl
    refine ⟨?_, mem_roomConns_of_getPresence h, ?_⟩
    · simp [sendMessage, h, roomConns]
    · simp [sendMessage, h]
  · rintro e rfl
    simp [sendMessage, h]

/-- Concrete state: room `room1` with alice on connection `c1` and bob on
connection `c2`, both with presence entries. -/
def chatSt : ServerState :=
  { db := { rooms := [⟨"r1", "room1", 0⟩],
            users := [⟨"u1", "room1", "alice", "c1", 0, 1, 0⟩,
                      ⟨"u2", "room1", "bob", "c2", 0, 1, 0⟩],
            messages := [], calls := [], nextMessageId := 1, nextCallId := 1 },
    presence := [("c1", ⟨"room1", "u1", "alice"⟩), ("c2", ⟨"room1", "u2", "bob"⟩)],
    activeCalls := [] }

/-- Witness for C1 at a concrete input: a two-member room; the sender's
presence is established, and on a successful insert the sender is in the
broadcast audience. -/
theorem sendMessage_broadcast_iff_insert_ok_witness :
    getPresence chatSt "c1" = some ⟨"room1", "u1", "alice"⟩ ∧
    "c1" ∈ roomConns chatSt "room1" := by
  refine ⟨by decide, ?_⟩
  exact ((sendMessage_broadcast_iff_insert_ok chatSt "c1" "hi" "text" 7 none
    ⟨"room1", "u1", "alice"⟩ (by decide)).1 rfl).2.1

/-! ### Claim C6 -/

/-- Concrete state: room `room1` with two `active` call rows (ids 1 and 2,
started at 10 and 20), and alice present on connection `c1`. -/
def twoCallSt : ServerState :=
  { db := { rooms := [⟨"r1", "room1", 0⟩], users := [], messages := [],
            calls := [⟨1, "room1", "video", "u1", "alice", "active", 10, none⟩,
                      ⟨2, "room1", "video", "u2", "bob", "active", 20, none⟩],
            nextMessageId := 1, nextCallId := 3 },
    presence := [("c1", ⟨"room1", "u1", "alice"⟩)],
    activeCalls := [("room1", ⟨"video", "u1"⟩)] }

/-- Counterexample to C6 as stated: with two `active` call rows in the
room, the most recent one is the row started at 20, yet the end-call
update (`WHERE room_code = ? AND status = 'active'`, no ordering or limit)
also flips the older row started at 10 to `ended` — so it is not true that
only the most recent active row is updated. -/
theorem endCall_updates_all_active_rows :
    (endCall twoCallSt "c1" 30 none).1.db.calls =
      [⟨1, "room1", "video", "u1", "alice", "ended", 10, some 30⟩,
       ⟨2, "room1", "video", "u2", "bob", "ended", 20, some 30⟩] := by decide

/-- C6 (amended): for an EndCall from a connection with a Presence entry
(and a successful store round-trip), the Call Tracker entry of the room is
cleared, **every** Call row of the room with `status = active` (not only
the most recent) is updated to `status = ended` with `ended_at = now`,
every other Call row is left unchanged, no row is added or removed (in
particular the update is a no-op when no active row exists), and the
call-ended notice carrying the sender's id and username goes to all other
connections of the room and not to the sender. -/
theorem endCall_amended (s : ServerState) (conn : String) (now : Nat) (p : Presence)
    (h : getPresence s conn = some p) :
    ((endCall s conn now none).1.db.calls.length = s.db.calls.length) ∧
    (∀ c ∈ s.db.calls, ¬(c.room_code = p.roomCode ∧ c.status = "active") →
      c ∈ (endCall s conn now none).1.db.calls) ∧
    (∀ c ∈ s.db.calls, c.room_code = p.roomCode → c.status = "active" →
      { c with status := "ended", ended_at := some now } ∈
        (endCall s conn now none).1.db.calls) ∧
    getActiveCall (endCall s conn now none).1 p.roomCode = none ∧
    (endCall s conn now none).2 =
      (roomConnsExcept s p.roomCode conn).map
        (fun c => (c, OutEvent.callEnded p.userId p.username)) ∧
    conn ∉ roomConnsExcept s p.roomCode conn := by
  simp only [endCall, h]
  refine ⟨by simp, ?_, ?_, ?_, ?_, not_mem_roomConnsExcept s p.roomCode conn⟩
  · intro c hc hnot
    refine List.mem_map.mpr ⟨c, hc, ?_⟩
    have : (c.room_code == p.roomCode && c.status == "active") = false := by
      rcases Decidable.not_and_iff_or_not.mp hnot with h1 | h1
      · have hb : (c.room_code == p.roomCode) = false := beq_eq_false_iff_ne.mpr h1
        simp [hb]
      · have hb : (c.status == "active") = false := beq_eq_false_iff_ne.mpr h1
        simp [hb]
    simp [endMap, this]
  · intro c hc h1 h2
    refine List.mem_map.mpr ⟨c, hc, ?_⟩
    have : (c.room_code == p.roomCode && c.status == "active") = true := by
      simp [h1, h2]
    simp [endMap, this]
  · simp only [getActiveCall]
    rw [List.find?_eq_none.mpr]
    · rfl
    · intro e he
      have := (List.mem_filter.mp he).2
      simpa using this
  · rfl

/-- Witness for C6 (amended) at the two-active-call state: the tracker
entry of the room is cleared by end-call. -/
theorem endCall_amended_witness :
    getPresence twoCallSt "c1" = some ⟨"room1", "u1", "alice"⟩ ∧
    getActiveCall (endCall twoCallSt "c1" 30 none).1 "room1" = none := by
  refine ⟨by decide, ?_⟩
  exact (endCall_amended twoCallSt "c1" 30 ⟨"room1", "u1", "alice"⟩ (by decide)).2.2.2.1

/-! ### Claim C3 -/

/-- A fresh coordinator: empty store, no presence, no tracked call. -/
def emptySt : ServerState :=
  { db := { rooms := [], users := [], messages := [], calls := [],
            nextMessageId := 1, nextCallId := 1 },
    presence := [], activeCalls := [] }

/-- Join-room failure oracle in which the rooms INSERT rejects with a
uniqueness-constraint violation (the concurrent-duplicate-creation case)
and every other store round-trip would succeed. -/
def joinPlanUnique : JoinPlan :=
  ⟨"r1", "u1", none, some StoreErr.unique, none, none, none, none, none⟩

/-- C3 (code behavior at the claim's scenario): when the Room insert of a
Join fails with a uniqueness violation, the handler does **not** re-read
the existing row and recover; the rejection lands in the blanket `catch`,
which surfaces the error notice "Failed to join room" to the joining
connection and aborts the join (no snapshot, no presence, no user row).
This contradicts the claim, which requires the violation to be recovered
locally with no error surfaced. -/
theorem joinRoom_unique_violation_surfaces_error :
    (joinRoom emptySt "c1" "abc123" "alice" 0 joinPlanUnique).2 =
      [("c1", OutEvent.errorEv "Failed to join room")] ∧
    (joinRoom emptySt "c1" "abc123" "alice" 0 joinPlanUnique).1 = emptySt := by decide

/-! ### Claim C2 -/

/-- Join-room failure oracle in which the member-list snapshot query (the
first store round-trip after presence registration) rejects. -/
def joinPlanLateFail : JoinPlan :=
  ⟨"r1", "u1", none, none, none, none, some StoreErr.other, none, none⟩

/-- Counterexample to C2 as stated: a Join whose member-list snapshot
query fails aborts with the error notice to the joiner — but the handler
has already run `socket.join` and assigned the socket's room/user fields,
and the `catch` removes nothing, so the joining connection is left **with**
a Presence entry (it stays in the room's broadcast audience). -/
theorem joinRoom_snapshot_failure_leaves_presence :
    (joinRoom emptySt "c1" "abc123" "alice" 0 joinPlanLateFail).2 =
      [("c1", OutEvent.errorEv "Failed to join room")] ∧
    getPresence (joinRoom emptySt "c1" "abc123" "alice" 0 joinPlanLateFail).1 "c1" =
      some ⟨"abc123", "u1", "alice"⟩ := by decide

/-- The join run aborts before presence registration: the room lookup
fails, or the room insert (attempted only when the room is absent) fails,
or the user lookup or user write fails. -/
def joinEarlyAbort (s : ServerState) (code : String) (p : JoinPlan) : Prop :=
  p.roomGet.isSome = true ∨
  (s.db.rooms.find? (fun r => r.code == code) = none ∧ p.roomInsert.isSome = true) ∨
  p.userGet.isSome = true ∨ p.userWrite.isSome = true

/-- The join run aborts somewhere: before presence registration, or in one
of the three snapshot queries after it. -/
def joinAnyAbort (s : ServerState) (code : String) (p : JoinPlan) : Prop :=
  joinEarlyAbort s code p ∨ p.usersQuery.isSome = true ∨
    p.messagesQuery.isSome = true ∨ p.callsQuery.isSome = true

instance (s : ServerState) (code : String) (p : JoinPlan) :
    Decidable (joinEarlyAbort s code p) :=
  inferInstanceAs (Decidable (_ ∨ _ ∨ _ ∨ _))

instance (s : ServerState) (code : String) (p : JoinPlan) :
    Decidable (joinAnyAbort s code p) :=
  inferInstanceAs (Decidable (_ ∨ _ ∨ _ ∨ _))

theorem joinAfterUser_out_of_fail {p : JoinPlan}
    (h : p.usersQuery.isSome = true ∨ p.messagesQuery.isSome = true ∨
      p.callsQuery.isSome = true)
    (s : ServerState) (conn code name uid : String) :
    (joinAfterUser s conn code name uid p).2 = joinErr conn := by
  cases hq : p.usersQuery with
  | some e => simp [joinAfterUser, hq]
  | none =>
    cases hm : p.messagesQuery with
    | some e => simp [joinAfterUser, hq, hm]
    | none =>
      cases hc : p.callsQuery with
      | some e => simp [joinAfterUser, hq, hm, hc]
      | none => simp [hq, hm, hc] at h

theorem joinAfterRoom_out_of_fail {p : JoinPlan}
    (h : p.userGet.isSome = true ∨ p.userWrite.isSome = true ∨
      p.usersQuery.isSome = true ∨ p.messagesQuery.isSome = true ∨
      p.callsQuery.isSome = true)
    (s : ServerState) (conn code name : String) (now : Nat) :
    (joinAfterRoom s conn code name now p).2 = joinErr conn := by
  cases hg : p.userGet with
  | some e => simp [joinAfterRoom, hg]
  | none =>
    have h1 : p.userWrite.isSome = true ∨ p.usersQuery.isSome = true ∨
        p.messagesQuery.isSome = true ∨ p.callsQuery.isSome = true := by
      simpa [hg] using h
    cases hw : p.userWrite with
    | some e => simp [joinAfterRoom, hg, hw]
    | none =>
      have h2 : p.usersQuery.isSome = true ∨ p.messagesQuery.isSome = true ∨
          p.callsQuery.isSome = true := by
        simpa [hw] using h1
      simp [joinAfterRoom, hg, hw, joinAfterUser_out_of_fail h2]

theorem joinAfterRoom_presence_of_early {p : JoinPlan}
    (h : p.userGet.isSome = true ∨ p.userWrite.isSome = true)
    (s : ServerState) (conn code name : String) (now : Nat) :
    (joinAfterRoom s conn code name now p).1.presence = s.presence := by
  cases hg : p.userGet with
  | some e => simp [joinAfterRoom, hg]
  | none =>
    have h1 : p.userWrite.isSome = true := by simpa [hg] using h
    cases hw : p.userWrite with
    | some e => simp [joinAfterRoom, hg, hw]
    | none => simp [hw] at h1

/-- C2 (amended): any store failure during a Join aborts the join and
emits the error notice to the joining connection only (no other connection
receives anything); and when the failure occurs **before** presence
registration — in the room lookup/creation or the user lookup/write — no
partial presence registration is left behind.  (By the counterexample, a
failure in one of the snapshot queries after registration leaves the
joining connection's Presence entry in place; the code's `catch` does not
remove it.) -/
theorem joinRoom_failure_error_only
    (s : ServerState) (conn code name : String) (now : Nat) (plan : JoinPlan)
    (h : joinAnyAbort s code plan) :
    (joinRoom s conn code name now plan).2 =
      [(conn, OutEvent.errorEv "Failed to join room")] ∧
    (joinEarlyAbort s code plan →
      (joinRoom s conn code name now plan).1.presence = s.presence) := by
  cases hg : plan.roomGet with
  | some e => simp [joinRoom, hg, joinErr]
  | none =>
    rcases hf : s.db.rooms.find? (fun r => r.code == code) with _ | r
    · cases hi : plan.roomInsert with
      | some e => simp [joinRoom, hg, hf, hi, joinErr]
      | none =>
        have h1 : plan.userGet.isSome = true ∨ plan.userWrite.isSome = true ∨
            plan.usersQuery.isSome = true ∨ plan.messagesQuery.isSome = true ∨
            plan.callsQuery.isSome = true := by
          rcases h with he | hl
          · rcases he with h' | h' | h' | h'
            · simp [hg] at h'
            · simp [hi] at h'
            · exact Or.inl h'
            · exact Or.inr (Or.inl h')
          · tauto
        constructor
        · simpa [joinRoom, hg, hf, hi, joinErr] using
            joinAfterRoom_out_of_fail h1 _ conn code name now
        · intro he
          have h2 : plan.userGet.isSome = true ∨ plan.userWrite.isSome = true := by
            rcases he with h' | h' | h' | h'
            · simp [hg] at h'
            · simp [hi] at h'
            · exact Or.inl h'
            · exact Or.inr h'
          simpa [joinRoom, hg, hf, hi] using
            joinAfterRoom_presence_of_early h2 _ conn code name now
    · have h1 : plan.userGet.isSome = true ∨ plan.userWrite.isSome = true ∨
          plan.usersQuery.isSome = true ∨ plan.messagesQuery.isSome = true ∨
          plan.callsQuery.isSome = true := by
        rcases h with he | hl
        · rcases he with h' | h' | h' | h'
          · simp [hg] at h'
          · simp [hf] at h'
          · exact Or.inl h'
          · exact Or.inr (Or.inl h')
        · tauto
      constructor
      · simpa [joinRoom, hg, hf, joinErr] using
          joinAfterRoom_out_of_fail h1 s conn code name now
      · intro he
        have h2 : plan.userGet.isSome = true ∨ plan.userWrite.isSome = true := by
          rcases he with h' | h' | h' | h'
          · simp [hg] at h'
          · simp [hf] at h'
          · exact Or.inl h'
          · exact Or.inr h'
        simpa [joinRoom, hg, hf] using
          joinAfterRoom_presence_of_early h2 s conn code name now

/-- Join-room failure oracle in which the user lookup rejects (an abort
before presence registration). -/
def joinPlanEarlyFail : JoinPlan :=
  ⟨"r1", "u1", none, none, some StoreErr.other, none, none, none, none⟩

/-- Witness for C2 (amended) at a concrete input: a Join whose user lookup
fails emits only the error notice to the joiner and leaves the presence
table exactly as it was. -/
theorem joinRoom_failure_error_only_witness :
    joinAnyAbort emptySt "abc123" joinPlanEarlyFail ∧
    joinEarlyAbort emptySt "abc123" joinPlanEarlyFail ∧
    (joinRoom emptySt "c1" "abc123" "alice" 0 joinPlanEarlyFail).2 =
      [("c1", OutEvent.errorEv "Failed to join room")] ∧
    (joinRoom emptySt "c1" "abc123" "alice" 0 joinPlanEarlyFail).1.presence =
      emptySt.presence := by
  have h := joinRoom_failure_error_only emptySt "c1" "abc123" "alice" 0 joinPlanEarlyFail
    (by decide)
  exact ⟨by decide, by decide, h.1, h.2 (by decide)⟩

/-! ### The join success path as an equation -/

/-- Room phase of the join handler: look up the room by code and create it
when absent (`INSERT INTO rooms (id, code) VALUES (?, ?)`). -/
def joinRoomWrite (db : DB) (code : String) (now : Nat) (plan : JoinPlan) : DB :=
  match db.rooms.find? (fun r => r.code == code) with
  | some _ => db
  | none => { db with rooms := db.rooms ++ [⟨plan.roomId, code, now⟩] }

theorem joinAfterUser_ok_eq (s : ServerState) (conn code name uid : String)
    {plan : JoinPlan} (hok : plan.ok) :
    joinAfterUser s conn code name uid plan =
      (setPresence s conn ⟨code, uid, name⟩,
        (conn, OutEvent.roomJoined code uid ((memberList s.db code).map toMemberView)
          (messageHistory s.db code) (recentCalls s.db code)) ::
        (roomConnsExcept (setPresence s conn ⟨code, uid, name⟩) code conn).map
          (fun c => (c, OutEvent.userJoined uid name ((memberList s.db code).map toMemberBrief)))) := by
  obtain ⟨_, _, _, _, hq, hm, hc⟩ := hok
  simp only [joinAfterUser, hq, hm, hc]
  rfl

theorem joinRoom_ok_eq (s : ServerState) (conn code name : String) (now : Nat)
    {plan : JoinPlan} (hok : plan.ok) :
    joinRoom s conn code name now plan =
      joinAfterUser
        { s with db :=
            (joinUserWrite (joinRoomWrite s.db code now plan) conn code name now plan).1 }
        conn code name
        (joinUserWrite (joinRoomWrite s.db code now plan) conn code name now plan).2 plan := by
  obtain ⟨hg, hi, hug, huw, _, _, _⟩ := hok
  rcases hf : s.db.rooms.find? (fun r => r.code == code) with _ | r
  · simp [joinRoom, hg, hf, hi, joinAfterRoom, hug, huw, joinRoomWrite]
  · simp [joinRoom, hg, hf, joinAfterRoom, hug, huw, joinRoomWrite]

theorem joinRoomWrite_preserves (db : DB) (code : String) (now : Nat) (plan : JoinPlan) :
    (joinRoomWrite db code now plan).users = db.users ∧
    (joinRoomWrite db code now plan).messages = db.messages ∧
    (joinRoomWrite db code now plan).calls = db.calls ∧
    (joinRoomWrite db code now plan).nextMessageId = db.nextMessageId ∧
    (joinRoomWrite db code now plan).nextCallId = db.nextCallId := by
  unfold joinRoomWrite
  split <;> exact ⟨rfl, rfl, rfl, rfl, rfl⟩

theorem joinUserWrite_preserves (db : DB) (conn code name : String) (now : Nat)
    (plan : JoinPlan) :
    (joinUserWrite db conn code name now plan).1.rooms = db.rooms ∧
    (joinUserWrite db conn code name now plan).1.messages = db.messages ∧
    (joinUserWrite db conn code name now plan).1.calls = db.calls ∧
    (joinUserWrite db conn code name now plan).1.nextMessageId = db.nextMessageId ∧
    (joinUserWrite db conn code name now plan).1.nextCallId = db.nextCallId := by
  unfold joinUserWrite
  split <;> exact ⟨rfl, rfl, rfl, rfl, rfl⟩

theorem userKey_update (code name conn exId : String) (now : Nat) (u : UserRow) :
    userKey code name
      (if u.id == exId then { u with socket_id := conn, is_online := 1, last_seen := now }
        else u) = userKey code name u := by
  by_cases h : (u.id == exId) = true
  · simp [h, userKey]
  · simp [h]

/-- Effect of the user phase on the rows of a `(room_code, username)` pair
(assuming the store's uniqueness constraint held before, i.e. at most one
such row): afterwards there is exactly one row, carrying the assigned user
id, the joining connection's socket id, `is_online = 1` and a refreshed
`last_seen`; a fresh row (with the fresh uuid) is appended when none
existed, and the existing row is updated in place (same id, no length
change) otherwise. -/
theorem joinUserWrite_usersFor (db : DB) (conn code name : String) (now : Nat)
    (plan : JoinPlan) (hlen : (usersFor db code name).length ≤ 1) :
    ∃ row, usersFor (joinUserWrite db conn code name now plan).1 code name = [row] ∧
      row.id = (joinUserWrite db conn code name now plan).2 ∧
      row.socket_id = conn ∧ row.is_online = 1 ∧ row.last_seen = now ∧
      ((usersFor db code name = [] ∧
          (joinUserWrite db conn code name now plan).1.users.length = db.users.length + 1 ∧
          (joinUserWrite db conn code name now plan).2 = plan.userId) ∨
        (∃ ex, usersFor db code name = [ex] ∧
          (joinUserWrite db conn code name now plan).1.users.length = db.users.length ∧
          (joinUserWrite db conn code name now plan).2 = ex.id)) := by
  have hfind : db.users.find? (userKey code name) = (usersFor db code name).head? :=
    find?_eq_head?_filter _ _
  rcases hU : usersFor db code name with _ | ⟨ex, tail⟩
  · have hf : db.users.find? (userKey code name) = none := by rw [hfind, hU]; rfl
    have hw : joinUserWrite db conn code name now plan =
        ({ db with users := db.users ++ [⟨plan.userId, code, name, conn, now, 1, now⟩] },
          plan.userId) := by
      unfold joinUserWrite
      rw [hf]
    rw [hw]
    refine ⟨⟨plan.userId, code, name, conn, now, 1, now⟩, ?_, rfl, rfl, rfl, rfl,
      Or.inl ⟨rfl, by simp, rfl⟩⟩
    unfold usersFor at hU ⊢
    simp [List.filter_append, hU, userKey]
  · have htl : tail.length + 1 ≤ 1 := by
      rw [hU] at hlen
      simpa using hlen
    have htail : tail = [] := List.length_eq_zero.mp (by omega)
    subst htail
    have hf : db.users.find? (userKey code name) = some ex := by rw [hfind, hU]; rfl
    have hw : joinUserWrite db conn code name now plan =
        ({ db with users := db.users.map (fun u =>
            if u.id == ex.id then { u with socket_id := conn, is_online := 1, last_seen := now }
            else u) }, ex.id) := by
      unfold joinUserWrite
      rw [hf]
    rw [hw]
    refine ⟨{ ex with socket_id := conn, is_online := 1, last_seen := now }, ?_, rfl, rfl, rfl,
      rfl, Or.inr ⟨ex, rfl, by simp, rfl⟩⟩
    show List.filter _ _ = _
    rw [filter_map_comm _ _ (fun u => userKey_update code name conn ex.id now u)]
    unfold usersFor at hU
    rw [hU]
    simp

/-! ### Claim C4 -/

/-- Projection of a handler's emission list: the target, room code and
assigned user id of a leading `room-joined` snapshot, when there is one. -/
def headRoomJoined (out : List (String × OutEvent)) : Option (String × String × String) :=
  match out with
  | (tgt, OutEvent.roomJoined code uid _ _ _) :: _ => some (tgt, code, uid)
  | _ => none

/-- C4: starting from a store satisfying the uniqueness constraint on
`(room_code, username)` (at most one such User row), two sequential
non-overlapping successful Joins with the same room code and username
emit the same assigned user id in their `room-joined` snapshots; after the
second Join there is exactly one User row for the pair, it carries that
same id with `socket_id` updated to the second connection, `is_online = 1`
and `last_seen` refreshed, and the second Join inserts no row (the user
table's length is unchanged by it). -/
theorem join_twice_same_user_id
    (s : ServerState) (conn1 conn2 code name : String) (now1 now2 : Nat)
    (p1 p2 : JoinPlan) (h1 : p1.ok) (h2 : p2.ok)
    (hlen : (usersFor s.db code name).length ≤ 1) :
    ∃ uid row,
      headRoomJoined (joinRoom s conn1 code name now1 p1).2 = some (conn1, code, uid) ∧
      headRoomJoined
        (joinRoom (joinRoom s conn1 code name now1 p1).1 conn2 code name now2 p2).2 =
        some (conn2, code, uid) ∧
      usersFor (joinRoom (joinRoom s conn1 code name now1 p1).1
        conn2 code name now2 p2).1.db code name = [row] ∧
      row.id = uid ∧ row.socket_id = conn2 ∧ row.is_online = 1 ∧ row.last_seen = now2 ∧
      (joinRoom (joinRoom s conn1 code name now1 p1).1
        conn2 code name now2 p2).1.db.users.length =
        (joinRoom s conn1 code name now1 p1).1.db.users.length := by
  have e1 := joinRoom_ok_eq s conn1 code name now1 h1
  rw [joinAfterUser_ok_eq _ _ _ _ _ h1] at e1
  have hu1 : usersFor (joinRoomWrite s.db code now1 p1) code name =
      usersFor s.db code name := by
    unfold usersFor
    rw [(joinRoomWrite_preserves s.db code now1 p1).1]
  obtain ⟨row1, hrow1, hid1, _, _, _, _⟩ :=
    joinUserWrite_usersFor (joinRoomWrite s.db code now1 p1) conn1 code name now1 p1
      (by rw [hu1]; exact hlen)
  have hs1db : (joinRoom s conn1 code name now1 p1).1.db =
      (joinUserWrite (joinRoomWrite s.db code now1 p1) conn1 code name now1 p1).1 := by
    rw [e1]; rfl
  have hu2 : usersFor (joinRoomWrite (joinRoom s conn1 code name now1 p1).1.db
      code now2 p2) code name = [row1] := by
    unfold usersFor
    rw [(joinRoomWrite_preserves _ code now2 p2).1, hs1db]
    exact hrow1
  obtain ⟨row2, hrow2, hid2, hsock2, hon2, hls2, hcase2⟩ :=
    joinUserWrite_usersFor (joinRoomWrite (joinRoom s conn1 code name now1 p1).1.db
      code now2 p2) conn2 code name now2 p2 (by rw [hu2]; simp)
  have huid2 : (joinUserWrite (joinRoomWrite (joinRoom s conn1 code name now1 p1).1.db
      code now2 p2) conn2 code name now2 p2).2 = row1.id := by
    rcases hcase2 with ⟨hnil, _, _⟩ | ⟨ex, hex, _, hexid⟩
    · rw [hu2] at hnil; cases hnil
    · rw [hu2] at hex
      injection hex with hex1 _
      rw [hexid, hex1]
  have e2 := joinRoom_ok_eq (joinRoom s conn1 code name now1 p1).1 conn2 code name now2 h2
  rw [joinAfterUser_ok_eq _ _ _ _ _ h2] at e2
  refine ⟨row1.id, row2, ?_, ?_, ?_, ?_, hsock2, hon2, hls2, ?_⟩
  · rw [e1, hid1]
    rfl
  · rw [e2, huid2]
    rfl
  · have : (joinRoom (joinRoom s conn1 code name now1 p1).1
        conn2 code name now2 p2).1.db =
        (joinUserWrite (joinRoomWrite (joinRoom s conn1 code name now1 p1).1.db
          code now2 p2) conn2 code name now2 p2).1 := by
      rw [e2]; rfl
    rw [this]
    exact hrow2
  · rw [hid2, huid2]
  · have hdb : (joinRoom (joinRoom s conn1 code name now1 p1).1
        conn2 code name now2 p2).1.db =
        (joinUserWrite (joinRoomWrite (joinRoom s conn1 code name now1 p1).1.db
          code now2 p2) conn2 code name now2 p2).1 := by
      rw [e2]; rfl
    rw [hdb]
    rcases hcase2 with ⟨hnil, _, _⟩ | ⟨ex, _, hexlen, _⟩
    · rw [hu2] at hnil; cases hnil
    · rw [hexlen, (joinRoomWrite_preserves _ code now2 p2).1]

/-- Witness for C4 at a concrete input: two sequential joins of `alice`
into the fresh room `abc123` from connections `c1` then `c2`. -/
theorem join_twice_same_user_id_witness :
    JoinPlan.ok ⟨"r1", "u1", none, none, none, none, none, none, none⟩ ∧
    JoinPlan.ok ⟨"r9", "u9", none, none, none, none, none, none, none⟩ ∧
    (usersFor emptySt.db "abc123" "alice").length ≤ 1 ∧
    (∃ uid row,
      headRoomJoined (joinRoom emptySt "c1" "abc123" "alice" 1
        ⟨"r1", "u1", none, none, none, none, none, none, none⟩).2 =
        some ("c1", "abc123", uid) ∧
      headRoomJoined (joinRoom (joinRoom emptySt "c1" "abc123" "alice" 1
          ⟨"r1", "u1", none, none, none, none, none, none, none⟩).1 "c2" "abc123" "alice" 2
          ⟨"r9", "u9", none, none, none, none, none, none, none⟩).2 =
        some ("c2", "abc123", uid) ∧
      usersFor (joinRoom (joinRoom emptySt "c1" "abc123" "alice" 1
          ⟨"r1", "u1", none, none, none, none, none, none, none⟩).1 "c2" "abc123" "alice" 2
          ⟨"r9", "u9", none, none, none, none, none, none, none⟩).1.db "abc123" "alice" =
        [row] ∧
      row.id = uid ∧ row.socket_id = "c2" ∧ row.is_online = 1 ∧ row.last_seen = 2 ∧
      (joinRoom (joinRoom emptySt "c1" "abc123" "alice" 1
          ⟨"r1", "u1", none, none, none, none, none, none, none⟩).1 "c2" "abc123" "alice" 2
          ⟨"r9", "u9", none, none, none, none, none, none, none⟩).1.db.users.length =
        (joinRoom emptySt "c1" "abc123" "alice" 1
          ⟨"r1", "u1", none, none, none, none, none, none, none⟩).1.db.users.length) := by
  refine ⟨by decide, by decide, by decide, ?_⟩
  exact join_twice_same_user_id emptySt "c1" "c2" "abc123" "alice" 1 2
    ⟨"r1", "u1", none, none, none, none, none, none, none⟩
    ⟨"r9", "u9", none, none, none, none, none, none, none⟩
    (by decide) (by decide) (by decide)

/-! ### Claim C7 -/

theorem endMap_id (room : String) (now : Nat) (c : CallRow) :
    (endMap room now c).id = c.id := by
  unfold endMap
  split <;> rfl

theorem endMap_of_ended {c : CallRow} (room : String) (now : Nat)
    (h : c.status = "ended") : endMap room now c = c := by
  have : (c.status == "active") = false := by simp [h]
  simp [endMap, this]

theorem joinAfterUser_preserves_calls (s : ServerState) (conn code name uid : String)
    (plan : JoinPlan) :
    (joinAfterUser s conn code name uid plan).1.db.calls = s.db.calls ∧
    (joinAfterUser s conn code name uid plan).1.db.nextCallId = s.db.nextCallId := by
  rcases hq : plan.usersQuery with _ | e <;> rcases hm : plan.messagesQuery with _ | e' <;>
    rcases hc : plan.callsQuery with _ | e'' <;> simp [joinAfterUser, hq, hm, hc, setPresence]

theorem joinAfterRoom_preserves_calls (s : ServerState) (conn code name : String)
    (now : Nat) (plan : JoinPlan) :
    (joinAfterRoom s conn code name now plan).1.db.calls = s.db.calls ∧
    (joinAfterRoom s conn code name now plan).1.db.nextCallId = s.db.nextCallId := by
  cases hg : plan.userGet with
  | some e => simp [joinAfterRoom, hg]
  | none =>
    cases hw : plan.userWrite with
    | some e => simp [joinAfterRoom, hg, hw]
    | none =>
      have h1 := joinAfterUser_preserves_calls
        { s with db := (joinUserWrite s.db conn code name now plan).1 } conn code name
        (joinUserWrite s.db conn code name now plan).2 plan
      have h2 := joinUserWrite_preserves s.db conn code name now plan
      simp only [joinAfterRoom, hg, hw]
      exact ⟨h1.1.trans h2.2.2.1, h1.2.trans h2.2.2.2.2⟩

theorem joinRoom_preserves_calls (s : ServerState) (conn code name : String)
    (now : Nat) (plan : JoinPlan) :
    (joinRoom s conn code name now plan).1.db.calls = s.db.calls ∧
    (joinRoom s conn code name now plan).1.db.nextCallId = s.db.nextCallId := by
  cases hg : plan.roomGet with
  | some e => simp [joinRoom, hg]
  | none =>
    rcases hf : s.db.rooms.find? (fun r => r.code == code) with _ | r
    · cases hi : plan.roomInsert with
      | some e => simp [joinRoom, hg, hf, hi]
      | none =>
        simp only [joinRoom, hg, hf, hi]
        exact joinAfterRoom_preserves_calls _ conn code name now plan
    · simp only [joinRoom, hg, hf]
      exact joinAfterRoom_preserves_calls s conn code name now plan

/-- Characterization of how one operation acts on the calls table: it is
untouched, or it is the end-call row-wise update, or the call-started
append of a fresh `active` row keyed by the AUTOINCREMENT counter. -/
theorem step_calls_char (s : ServerState) (op : Op) :
    ((step s op).db.calls = s.db.calls ∧ (step s op).db.nextCallId = s.db.nextCallId) ∨
    (∃ room now, (step s op).db.calls = s.db.calls.map (endMap room now) ∧
      (step s op).db.nextCallId = s.db.nextCallId) ∨
    (∃ room callType uid uname now,
      (step s op).db.calls = s.db.calls ++
        [⟨s.db.nextCallId, room, callType, uid, uname, "active", now, none⟩] ∧
      (step s op).db.nextCallId = s.db.nextCallId + 1) := by
  cases op with
  | join conn code name now plan =>
    exact Or.inl (joinRoom_preserves_calls s conn code name now plan)
  | send conn msg mtype now fail =>
    rcases hp : getPresence s conn with _ | p
    · exact Or.inl (by simp [step, sendMessage, hp])
    · rcases hf : fail with _ | e <;>
        exact Or.inl (by simp [step, sendMessage, hp])
  | tStart conn =>
    rcases hp : getPresence s conn with _ | p <;>
      exact Or.inl (by simp [step, typingStart, hp])
  | tStop conn =>
    rcases hp : getPresence s conn with _ | p <;>
      exact Or.inl (by simp [step, typingStop, hp])
  | offer conn o ct =>
    rcases hp : getPresence s conn with _ | p <;>
      exact Or.inl (by simp [step, offerH, hp])
  | answer conn a =>
    rcases hp : getPresence s conn with _ | p <;>
      exact Or.inl (by simp [step, answerH, hp])
  | ice conn cand =>
    rcases hp : getPresence s conn with _ | p <;>
      exact Or.inl (by simp [step, iceCandidate, hp])
  | callStart conn ct now fail =>
    rcases hp : getPresence s conn with _ | p
    · exact Or.inl (by simp [step, callStarted, hp])
    · rcases hf : fail with _ | e
      · exact Or.inr (Or.inr ⟨p.roomCode, ct, p.userId, p.username, now,
          by simp [step, callStarted, hp], by simp [step, callStarted, hp]⟩)
      · exact Or.inl (by simp [step, callStarted, hp, hf])
  | callEnd conn now fail =>
    rcases hp : getPresence s conn with _ | p
    · exact Or.inl (by simp [step, endCall, hp])
    · rcases hf : fail with _ | e
      · exact Or.inr (Or.inl ⟨p.roomCode, now,
          by simp [step, endCall, hp], by simp [step, endCall, hp]⟩)
      · exact Or.inl (by simp [step, endCall, hp, hf])
  | disc conn now f1 f2 =>
    rcases hp : getPresence s conn with _ | p
    · exact Or.inl (by simp [step, disconnectH, hp, removePresence])
    · rcases h1 : f1 with _ | e
      · rcases h2 : f2 with _ | e' <;>
          exact Or.inl (by simp [step, disconnectH, hp, h1, removePresence])
      · exact Or.inl (by simp [step, disconnectH, hp, h1, removePresence])
  | sweep now fail =>
    rcases hf : fail with _ | e <;>
      exact Or.inl (by simp [step, sweepRun, cleanupUsers, hf])
  | ping conn => exact Or.inl (by simp [step, pingH])

/-- The store's key discipline on the calls table: every row id is below
the AUTOINCREMENT counter, and ids are pairwise distinct. -/
def CallsWF (s : ServerState) : Prop :=
  (∀ c ∈ s.db.calls, c.id < s.db.nextCallId) ∧
    s.db.calls.Pairwise (fun a b => a.id ≠ b.id)

instance (s : ServerState) : Decidable (CallsWF s) :=
  inferInstanceAs (Decidable (_ ∧ _))

theorem CallsWF_step {s : ServerState} (h : CallsWF s) (op : Op) : CallsWF (step s op) := by
  rcases step_calls_char s op with ⟨hc, hn⟩ | ⟨room, now, hc, hn⟩ |
    ⟨room, ct, uid, un, now, hc, hn⟩
  · exact ⟨by rw [hc, hn]; exact h.1, by rw [hc]; exact h.2⟩
  · constructor
    · rw [hc, hn]
      intro c hcm
      obtain ⟨c0, hc0, rfl⟩ := List.mem_map.mp hcm
      rw [endMap_id]
      exact h.1 c0 hc0
    · rw [hc]
      exact (List.pairwise_map.mpr (h.2.imp (by
        intro a b hab
        rw [endMap_id, endMap_id]
        exact hab)))
  · constructor
    · rw [hc, hn]
      intro c hcm
      rcases List.mem_append.mp hcm with hin | hnew
      · exact Nat.lt_succ_of_lt (h.1 c hin)
      · rw [List.mem_singleton.mp hnew]
        exact Nat.lt_succ_self _
    · rw [hc]
      refine List.pairwise_append.mpr ⟨h.2, List.pairwise_singleton _ _, ?_⟩
      intro a ha b hb
      rw [List.mem_singleton.mp hb]
      exact Nat.ne_of_lt (h.1 a ha)

theorem step_ended_mem {s : ServerState} {c : CallRow} (hmem : c ∈ s.db.calls)
    (hend : c.status = "ended") (op : Op) : c ∈ (step s op).db.calls := by
  rcases step_calls_char s op with ⟨hc, _⟩ | ⟨room, now, hc, _⟩ |
    ⟨room, ct, uid, un, now, hc, _⟩
  · rw [hc]; exact hmem
  · rw [hc]
    have := List.mem_map_of_mem (endMap room now) hmem
    rwa [endMap_of_ended room now hend] at this
  · rw [hc]
    exact List.mem_append_left _ hmem

theorem pairwise_ne_id_unique {l : List CallRow}
    (hp : l.Pairwise (fun a b => a.id ≠ b.id)) {a b : CallRow}
    (ha : a ∈ l) (hb : b ∈ l) (hid : a.id = b.id) : a = b := by
  induction l with
  | nil => cases ha
  | cons x t ih =>
    obtain ⟨hx, ht⟩ := List.pairwise_cons.mp hp
    rcases List.mem_cons.mp ha with rfl | ha'
    · rcases List.mem_cons.mp hb with rfl | hb'
      · rfl
      · exact absurd hid (hx b hb')
    · rcases List.mem_cons.mp hb with rfl | hb'
      · exact absurd hid.symm (hx a ha')
      · exact ih ht ha' hb'

/-- C7: along any sequence of coordinator operations (joins, messages,
signaling, call lifecycle, disconnects, sweeper runs, with arbitrary
store-failure outcomes), starting from a state whose calls table respects
the store's key discipline, an `ended` Call row stays in the table
unchanged and remains the unique row with its id — so a Call row
transitions `active → ended` at most once and never `ended → active`. -/
theorem call_row_ended_stays_ended
    (s : ServerState) (ops : List Op) (c c' : CallRow)
    (hwf : CallsWF s) (hc : c ∈ s.db.calls) (hend : c.status = "ended")
    (hc' : c' ∈ (run s ops).db.calls) (hid : c'.id = c.id) :
    c' = c ∧ c'.status = "ended" := by
  induction ops generalizing s with
  | nil =>
    have : c' = c := pairwise_ne_id_unique hwf.2 hc' hc hid
    exact ⟨this, by rw [this]; exact hend⟩
  | cons op rest ih =>
    exact ih (step s op) (CallsWF_step hwf op) (step_ended_mem hc hend op) hc'

/-- Concrete state for C7: one `ended` call row with a tracked counter. -/
def endedCallSt : ServerState :=
  { db := { rooms := [⟨"r1", "room1", 0⟩],
            users := [⟨"u1", "room1", "alice", "c1", 0, 1, 0⟩], messages := [],
            calls := [⟨1, "room1", "video", "u1", "alice", "ended", 5, some 6⟩],
            nextMessageId := 1, nextCallId := 2 },
    presence := [("c1", ⟨"room1", "u1", "alice"⟩)],
    activeCalls := [] }

/-- Witness for C7 at a concrete input: after a new call starts and is
ended again, the previously ended row is still present, unchanged and
unique for its id. -/
theorem call_row_ended_stays_ended_witness :
    CallsWF endedCallSt ∧
    (⟨1, "room1", "video", "u1", "alice", "ended", 5, some 6⟩ : CallRow) ∈
      endedCallSt.db.calls ∧
    (⟨1, "room1", "video", "u1", "alice", "ended", 5, some 6⟩ : CallRow) ∈
      (run endedCallSt [Op.callStart "c1" "video" 7 none, Op.callEnd "c1" 8 none]).db.calls ∧
    ((⟨1, "room1", "video", "u1", "alice", "ended", 5, some 6⟩ : CallRow) =
        ⟨1, "room1", "video", "u1", "alice", "ended", 5, some 6⟩ ∧
      (⟨1, "room1", "video", "u1", "alice", "ended", 5, some 6⟩ : CallRow).status =
        "ended") := by
  refine ⟨by decide, by decide, by decide, ?_⟩
  exact call_row_ended_stays_ended endedCallSt
    [Op.callStart "c1" "video" 7 none, Op.callEnd "c1" 8 none]
    ⟨1, "room1", "video", "u1", "alice", "ended", 5, some 6⟩
    ⟨1, "room1", "video", "u1", "alice", "ended", 5, some 6⟩
    (by decide) (by decide) (by decide) (by decide) (by decide)

/-! ### Claim C8 -/

instance : IsTotal UserRow userOrd := ⟨by
  intro a b
  rcases Nat.lt_trichotomy a.is_online b.is_online with h | h | h
  · exact Or.inr (Or.inl h)
  · rcases le_total a.username b.username with hs | hs
    · exact Or.inl (Or.inr ⟨h, hs⟩)
    · exact Or.inr (Or.inr ⟨h.symm, hs⟩)
  · exact Or.inl (Or.inl h)⟩

instance : IsTrans UserRow userOrd := ⟨by
  intro a b c hab hbc
  rcases hab with h1 | ⟨h1, h1'⟩
  · rcases hbc with h2 | ⟨h2, h2'⟩
    · exact Or.inl (h2.trans h1)
    · exact Or.inl (by omega)
  · rcases hbc with h2 | ⟨h2, h2'⟩
    · exact Or.inl (by omega)
    · exact Or.inr ⟨by omega, le_trans h1' h2'⟩⟩

instance : IsTotal MessageRow msgOrd :=
  ⟨fun a b => Nat.le_total a.created_at b.created_at⟩

instance : IsTrans MessageRow msgOrd :=
  ⟨fun _ _ _ hab hbc => Nat.le_trans hab hbc⟩

instance : IsTotal CallRow callOrd :=
  ⟨fun a b => Nat.le_total b.started_at a.started_at⟩

instance : IsTrans CallRow callOrd :=
  ⟨fun _ _ _ hab hbc => Nat.le_trans hbc hab⟩

theorem memberList_sorted (db : DB) (code : String) :
    List.Sorted userOrd (memberList db code) :=
  List.sorted_insertionSort userOrd _

theorem memberList_perm (db : DB) (code : String) :
    (memberList db code).Perm (db.users.filter (fun u => u.room_code == code)) :=
  List.perm_insertionSort userOrd _

theorem recentCalls_sorted (db : DB) (code : String) :
    List.Sorted callOrd (recentCalls db code) :=
  List.Pairwise.sublist (List.take_sublist _ _) (List.sorted_insertionSort callOrd _)

theorem recentCalls_length_le (db : DB) (code : String) :
    (recentCalls db code).length ≤ 10 := by
  unfold recentCalls
  exact List.length_take_le _ _

theorem recentCalls_mem (db : DB) (code : String) :
    ∀ c ∈ recentCalls db code, c ∈ db.calls ∧ c.room_code = code := by
  intro c hc
  have h1 : c ∈ List.insertionSort callOrd
      (db.calls.filter (fun x => x.room_code == code)) :=
    List.take_subset _ _ hc
  have h2 := (List.mem_insertionSort callOrd).mp h1
  obtain ⟨hmem, hcode⟩ := List.mem_filter.mp h2
  exact ⟨hmem, by simpa using hcode⟩

/-- C8: the snapshot of every successful Join emits to the joiner the
room's member list sorted online-first then alphabetically by username (a
permutation of all the room's user rows), the full message history sorted
ascending by creation time (a permutation of all the room's message rows,
each viewed through the LEFT JOIN), and at most the 10 most recent calls
sorted most-recent-first, each a call row of the room. -/
theorem join_snapshot_ordering
    (s : ServerState) (conn code name : String) (now : Nat) (plan : JoinPlan)
    (hok : plan.ok) :
    ∃ uid rest,
      (joinRoom s conn code name now plan).2 =
        (conn, OutEvent.roomJoined code uid
          ((memberList (joinRoom s conn code name now plan).1.db code).map toMemberView)
          (messageHistory (joinRoom s conn code name now plan).1.db code)
          (recentCalls (joinRoom s conn code name now plan).1.db code)) :: rest ∧
      List.Sorted userOrd (memberList (joinRoom s conn code name now plan).1.db code) ∧
      (memberList (joinRoom s conn code name now plan).1.db code).Perm
        ((joinRoom s conn code name now plan).1.db.users.filter
          (fun u => u.room_code == code)) ∧
      (∃ ms, messageHistory (joinRoom s conn code name now plan).1.db code =
          ms.map (msgView (joinRoom s conn code name now plan).1.db) ∧
        List.Sorted msgOrd ms ∧
        ms.Perm ((joinRoom s conn code name now plan).1.db.messages.filter
          (fun m => m.room_code == code))) ∧
      List.Sorted callOrd (recentCalls (joinRoom s conn code name now plan).1.db code) ∧
      (recentCalls (joinRoom s conn code name now plan).1.db code).length ≤ 10 ∧
      (∀ c ∈ recentCalls (joinRoom s conn code name now plan).1.db code,
        c ∈ (joinRoom s conn code name now plan).1.db.calls ∧ c.room_code = code) := by
  have e := joinRoom_ok_eq s conn code name now hok
  rw [joinAfterUser_ok_eq _ _ _ _ _ hok] at e
  rw [e]
  refine ⟨_, _, rfl, memberList_sorted _ _, memberList_perm _ _,
    ⟨_, rfl, List.sorted_insertionSort msgOrd _, List.perm_insertionSort msgOrd _⟩,
    recentCalls_sorted _ _, recentCalls_length_le _ _, recentCalls_mem _ _⟩

/-- The single successful join used by the C8 and C10 witnesses. -/
def joinW : ServerState × List (String × OutEvent) :=
  joinRoom emptySt "c1" "abc123" "alice" 3
    ⟨"r1", "u1", none, none, none, none, none, none, none⟩

/-- Witness for C8 at a concrete input: a successful join of a fresh room. -/
theorem join_snapshot_ordering_witness :
    JoinPlan.ok ⟨"r1", "u1", none, none, none, none, none, none, none⟩ ∧
    (∃ uid rest,
      joinW.2 =
        ("c1", OutEvent.roomJoined "abc123" uid
          ((memberList joinW.1.db "abc123").map toMemberView)
          (messageHistory joinW.1.db "abc123")
          (recentCalls joinW.1.db "abc123")) :: rest ∧
      List.Sorted userOrd (memberList joinW.1.db "abc123") ∧
      (memberList joinW.1.db "abc123").Perm
        (joinW.1.db.users.filter (fun u => u.room_code == "abc123")) ∧
      (∃ ms, messageHistory joinW.1.db "abc123" = ms.map (msgView joinW.1.db) ∧
        List.Sorted msgOrd ms ∧
        ms.Perm (joinW.1.db.messages.filter (fun m => m.room_code == "abc123"))) ∧
      List.Sorted callOrd (recentCalls joinW.1.db "abc123") ∧
      (recentCalls joinW.1.db "abc123").length ≤ 10 ∧
      (∀ c ∈ recentCalls joinW.1.db "abc123",
        c ∈ joinW.1.db.calls ∧ c.room_code = "abc123")) := by
  refine ⟨by decide, ?_⟩
  exact join_snapshot_ordering emptySt "c1" "abc123" "alice" 3
    ⟨"r1", "u1", none, none, none, none, none, none, none⟩ (by decide)

/-! ### Claim C10 -/

theorem joinUserWrite_ids (db : DB) (conn code name : String) (now : Nat)
    (plan : JoinPlan) :
    ∀ v ∈ (joinUserWrite db conn code name now plan).1.users,
      (∃ v0 ∈ db.users, v.id = v0.id) ∨ v.id = plan.userId := by
  unfold joinUserWrite
  rcases hfind : db.users.find? (userKey code name) with _ | ex
  · intro v hv
    simp only at hv
    rcases List.mem_append.mp hv with h1 | h1
    · exact Or.inl ⟨v, h1, rfl⟩
    · rw [List.mem_singleton.mp h1]
      exact Or.inr rfl
  · intro v hv
    simp only at hv
    obtain ⟨v0, hv0, rfl⟩ := List.mem_map.mp hv
    refine Or.inl ⟨v0, hv0, ?_⟩
    by_cases h : (v0.id == ex.id) = true
    · simp [h]
    · simp only [Bool.not_eq_true] at h
      simp [h]

/-- C10: once the Reclamation Sweeper has deleted a user's User row, that
user's Message rows still appear in the message history of every
subsequent successful Join snapshot — the history query selects all of the
room's messages — but the `LEFT JOIN users u ON m.user_id = u.id` finds no
row, and the joined NULL `u.username` column overwrites the username
stored on the message row, so the entry surfaces with a null username
(while keeping the message's id and body).  Hypotheses: the user row is
stale (offline past the retention threshold at sweep time), user ids are
unique, the joining run succeeds, and the joiner's fresh uuid differs from
the deleted id. -/
theorem deleted_user_messages_null_username
    (s : ServerState) (conn code name : String) (tsweep now : Nat) (plan : JoinPlan)
    (u : UserRow) (m : MessageRow)
    (_hu : u ∈ s.db.users) (hon : u.is_online = 0) (hstale : u.last_seen + 3600 < tsweep)
    (huniq : ∀ v ∈ s.db.users, v.id = u.id → v = u)
    (hm : m ∈ s.db.messages) (hmid : m.user_id = u.id) (hroom : m.room_code = code)
    (hok : plan.ok) (hfresh : plan.userId ≠ u.id) :
    u ∉ (sweepRun s tsweep none).db.users ∧
    (∃ uid rest,
      (joinRoom (sweepRun s tsweep none) conn code name now plan).2 =
        (conn, OutEvent.roomJoined code uid
          ((memberList (joinRoom (sweepRun s tsweep none) conn code name now plan).1.db
            code).map toMemberView)
          (messageHistory (joinRoom (sweepRun s tsweep none) conn code name now plan).1.db
            code)
          (recentCalls (joinRoom (sweepRun s tsweep none) conn code name now plan).1.db
            code)) :: rest) ∧
    msgView (joinRoom (sweepRun s tsweep none) conn code name now plan).1.db m ∈
      messageHistory (joinRoom (sweepRun s tsweep none) conn code name now plan).1.db code ∧
    (msgView (joinRoom (sweepRun s tsweep none) conn code name now plan).1.db m).id = m.id ∧
    (msgView (joinRoom (sweepRun s tsweep none) conn code name now plan).1.db m).message =
      m.message ∧
    (msgView (joinRoom (sweepRun s tsweep none) conn code name now plan).1.db m).username =
      none := by
  have hkeep : (!(u.is_online == 0 && u.last_seen + 3600 < tsweep) : Bool) = false := by
    simp [hon, hstale]
  have hsw_users : (sweepRun s tsweep none).db.users =
      s.db.users.filter (fun v => !(v.is_online == 0 && v.last_seen + 3600 < tsweep)) := rfl
  have hnot : u ∉ (sweepRun s tsweep none).db.users := by
    rw [hsw_users]
    intro hmem
    have := (List.mem_filter.mp hmem).2
    rw [hkeep] at this
    cases this
  have hids : ∀ v ∈ (sweepRun s tsweep none).db.users, v.id ≠ u.id := by
    intro v hv hvid
    obtain ⟨hvs, hvkeep⟩ := List.mem_filter.mp (hsw_users ▸ hv)
    have : v = u := huniq v hvs hvid
    rw [this, hkeep] at hvkeep
    cases hvkeep
  have e := joinRoom_ok_eq (sweepRun s tsweep none) conn code name now hok
  rw [joinAfterUser_ok_eq _ _ _ _ _ hok] at e
  have hdb : (joinRoom (sweepRun s tsweep none) conn code name now plan).1.db =
      (joinUserWrite (joinRoomWrite (sweepRun s tsweep none).db code now plan)
        conn code name now plan).1 := by
    rw [e]
    rfl
  have hids2 : ∀ v ∈ (joinRoom (sweepRun s tsweep none) conn code name now plan).1.db.users,
      v.id ≠ u.id := by
    rw [hdb]
    intro v hv
    rcases joinUserWrite_ids (joinRoomWrite (sweepRun s tsweep none).db code now plan)
        conn code name now plan v hv with ⟨v0, hv0, hvid⟩ | hvid
    · rw [(joinRoomWrite_preserves _ code now plan).1] at hv0
      rw [hvid]
      exact hids v0 hv0
    · rw [hvid]
      exact hfresh
  have hmsgs : (joinRoom (sweepRun s tsweep none) conn code name now plan).1.db.messages =
      s.db.messages := by
    rw [hdb, (joinUserWrite_preserves _ conn code name now plan).2.1,
      (joinRoomWrite_preserves _ code now plan).2.1]
    rfl
  have hfindnone : ((joinRoom (sweepRun s tsweep none) conn code name now plan).1.db.users.find?
      (fun v => v.id == m.user_id)) = none := by
    rw [List.find?_eq_none]
    intro v hv
    have := hids2 v hv
    simp [hmid, this]
  refine ⟨hnot, ⟨_, _, by rw [e]; rfl⟩, ?_, rfl, rfl, ?_⟩
  · have hmem : m ∈ (joinRoom (sweepRun s tsweep none) conn code name now
        plan).1.db.messages.filter (fun x => x.room_code == code) := by
      rw [hmsgs]
      exact List.mem_filter.mpr ⟨hm, by simp [hroom]⟩
    unfold messageHistory
    exact List.mem_map_of_mem _ ((List.mem_insertionSort msgOrd).mpr hmem)
  · unfold msgView
    rw [hfindnone]
    rfl

/-- Concrete state for C10: a room whose only user row (alice) is offline
and stale, with one message of hers on record. -/
def staleMsgSt : ServerState :=
  { db := { rooms := [⟨"r1", "room1", 0⟩],
            users := [⟨"u1", "room1", "alice", "cOld", 0, 0, 0⟩],
            messages := [⟨1, "room1", "u1", "alice", "hi", "text", 0⟩],
            calls := [], nextMessageId := 2, nextCallId := 1 },
    presence := [], activeCalls := [] }

/-- The post-sweep join used by the C10 witness: bob joins `room1` after
the sweeper has removed alice's stale row. -/
def joinAfterSweep : ServerState × List (String × OutEvent) :=
  joinRoom (sweepRun staleMsgSt 4000 none) "c2" "room1" "bob" 5000
    ⟨"r9", "u2", none, none, none, none, none, none, none⟩

/-- Witness for C10 at a concrete input: after the sweep deletes alice,
bob's join snapshot still lists alice's message, with a null username. -/
theorem deleted_user_messages_null_username_witness :
    (⟨"u1", "room1", "alice", "cOld", 0, 0, 0⟩ : UserRow) ∈ staleMsgSt.db.users ∧
    (⟨"u1", "room1", "alice", "cOld", 0, 0, 0⟩ : UserRow).is_online = 0 ∧
    (⟨"u1", "room1", "alice", "cOld", 0, 0, 0⟩ : UserRow).last_seen + 3600 < 4000 ∧
    (∀ v ∈ staleMsgSt.db.users,
      v.id = (⟨"u1", "room1", "alice", "cOld", 0, 0, 0⟩ : UserRow).id →
        v = ⟨"u1", "room1", "alice", "cOld", 0, 0, 0⟩) ∧
    (⟨1, "room1", "u1", "alice", "hi", "text", 0⟩ : MessageRow) ∈ staleMsgSt.db.messages ∧
    JoinPlan.ok ⟨"r9", "u2", none, none, none, none, none, none, none⟩ ∧
    ((⟨"u1", "room1", "alice", "cOld", 0, 0, 0⟩ : UserRow) ∉
        (sweepRun staleMsgSt 4000 none).db.users ∧
      (∃ uid rest,
        joinAfterSweep.2 =
          ("c2", OutEvent.roomJoined "room1" uid
            ((memberList joinAfterSweep.1.db "room1").map toMemberView)
            (messageHistory joinAfterSweep.1.db "room1")
            (recentCalls joinAfterSweep.1.db "room1")) :: rest) ∧
      msgView joinAfterSweep.1.db ⟨1, "room1", "u1", "alice", "hi", "text", 0⟩ ∈
        messageHistory joinAfterSweep.1.db "room1" ∧
      (msgView joinAfterSweep.1.db ⟨1, "room1", "u1", "alice", "hi", "text", 0⟩).id =
        (⟨1, "room1", "u1", "alice", "hi", "text", 0⟩ : MessageRow).id ∧
      (msgView joinAfterSweep.1.db ⟨1, "room1", "u1", "alice", "hi", "text", 0⟩).message =
        (⟨1, "room1", "u1", "alice", "hi", "text", 0⟩ : MessageRow).message ∧
      (msgView joinAfterSweep.1.db ⟨1, "room1", "u1", "alice", "hi", "text", 0⟩).username =
        none) := by
  refine ⟨by decide, by decide, by decide, by decide, by decide, by decide, ?_⟩
  exact deleted_user_messages_null_username staleMsgSt "c2" "room1" "bob" 4000 5000
    ⟨"r9", "u2", none, none, none, none, none, none, none⟩
    ⟨"u1", "room1", "alice", "cOld", 0, 0, 0⟩
    ⟨1, "room1", "u1", "alice", "hi", "text", 0⟩
    (by decide) (by decide) (by decide) (by decide) (by decide) (by decide) (by decide)
    (by decide) (by decide)

end RealChat
